import Mathlib

/-!
Shallow embedding of the region-removal core of
`src/Server/Lambda_handler.py` (`_remove_people_from_image`).

Images are modelled as one colour channel of a PIL image: a width, a
height, a colour mode tag, and a pixel lookup function on integer
coordinates (PIL's `(x, y)` with `x` a column and `y` a row).  The code
operates channel-wise throughout (crop, bilinear resize, paste), so one
channel suffices for every pixel-level statement.

Python floats are modelled as rationals; Python `int(q)` truncates toward
zero, which `pyInt` reproduces.  PIL's `Image.resize(..., BILINEAR)` is
modelled as standard bilinear interpolation with half-pixel centres and
edge clamping, rounding to the nearest integer channel value; every claim
below depends only on properties shared by any convex-combination
resampler (output size, and constant regions staying constant).
-/

namespace ObjectRemoval

/-- One 8-bit channel sample of a pixel. -/
abbrev Pixel := Nat

/-- A decoded image: dimensions, colour mode, and per-channel pixel data. -/
structure PImage where
  width : Int
  height : Int
  mode : String
  pix : Int → Int → Pixel

/-- Model of `Image.copy()`: a fresh buffer with identical content, dimensions and mode. -/
def PImage.copy (img : PImage) : PImage :=
  ⟨img.width, img.height, img.mode, img.pix⟩

/-- Model of `Image.crop((l, t, r, b))`: the sub-image of columns `[l, r)` and rows
`[t, b)`; pixel `(x, y)` of the crop is pixel `(l + x, t + y)` of the source. -/
def PImage.crop (img : PImage) (l t r b : Int) : PImage :=
  ⟨r - l, b - t, img.mode, fun x y => img.pix (l + x) (t + y)⟩

/-- Source coordinate sampled for output position `outPos` when resizing a
dimension of `inSize` pixels to `outSize` pixels: half-pixel-centre mapping,
clamped to the valid source range `[0, inSize - 1]`. -/
def srcCoord (outPos outSize inSize : Int) : Rat :=
  max 0 (min (((outPos : Rat) + 1/2) * ((inSize : Rat) / (outSize : Rat)) - 1/2)
             ((inSize : Rat) - 1))

/-- Exact rational value of the bilinear sample of `img` at fractional
source coordinates `(sx, sy)`: the weighted average of the four surrounding
pixels `(x0, y0)`, `(x1, y0)`, `(x0, y1)`, `(x1, y1)` where `x0 = floor sx`,
`x1 = min (x0 + 1) (width - 1)`, with weights given by the fractional parts. -/
def bilinearVal (img : PImage) (sx sy : Rat) : Rat :=
  (1 - (sy - (⌊sy⌋ : Rat))) *
    ((1 - (sx - (⌊sx⌋ : Rat))) * (img.pix ⌊sx⌋ ⌊sy⌋ : Rat) +
     (sx - (⌊sx⌋ : Rat)) * (img.pix (min (⌊sx⌋ + 1) (img.width - 1)) ⌊sy⌋ : Rat)) +
  (sy - (⌊sy⌋ : Rat)) *
    ((1 - (sx - (⌊sx⌋ : Rat))) * (img.pix ⌊sx⌋ (min (⌊sy⌋ + 1) (img.height - 1)) : Rat) +
     (sx - (⌊sx⌋ : Rat)) *
       (img.pix (min (⌊sx⌋ + 1) (img.width - 1)) (min (⌊sy⌋ + 1) (img.height - 1)) : Rat))

/-- Bilinear sample of `img` at fractional source coordinates `(sx, sy)`,
rounded to the nearest integer channel value. -/
def bilinearAt (img : PImage) (sx sy : Rat) : Pixel :=
  (⌊bilinearVal img sx sy + 1/2⌋).toNat

/-- Model of `Image.resize((w, h), Image.Resampling.BILINEAR)`. -/
def PImage.resize (img : PImage) (w h : Int) : PImage :=
  ⟨w, h, img.mode, fun x y =>
    bilinearAt img (srcCoord x w img.width) (srcCoord y h img.height)⟩

/-- Model of `base.paste(patch, (l, t, r, b))`: overwrite columns `[l, r)` and rows
`[t, b)` of `base` with `patch` (whose size equals the box), leaving every
other pixel, the dimensions and the mode of `base` unchanged. -/
def PImage.paste (base patch : PImage) (l t r b : Int) : PImage :=
  ⟨base.width, base.height, base.mode, fun x y =>
    if l ≤ x ∧ x < r ∧ t ≤ y ∧ y < b then patch.pix (x - l) (y - t)
    else base.pix x y⟩

/-- A Rekognition `BoundingBox` dict: each of the four normalized fields is
either a rational value or `none`, the latter standing for an absent key, a
`None` value, or any other non-numeric falsy value. -/
structure BoundingBox where
  Left : Option Rat := none
  Top : Option Rat := none
  Width : Option Rat := none
  Height : Option Rat := none

/-- One entry of the Rekognition `Instances` list; `none` models an instance
whose `BoundingBox` key is absent or holds a falsy value. -/
structure RekInstance where
  boundingBox : Option BoundingBox := none

/-- Model of `bbox.get(key, 0) or 0`: an absent key gives the default `0`, and a
present falsy value (`None`, `0`, `0.0`) is replaced by `0` by `or 0`. -/
def getOr0 : Option Rat → Rat
  | none => 0
  | some x => if x = 0 then 0 else x

/-- Python `int(q)` on a float: truncation toward zero. -/
def pyInt (q : Rat) : Int := if 0 ≤ q then ⌊q⌋ else ⌈q⌉

/-- Model of line 35, `bbox = instance.get('BoundingBox') or ...`: an absent
or falsy value gives the empty dict, i.e. the all-defaults `BoundingBox`. -/
def bboxOf (inst : RekInstance) : BoundingBox :=
  match inst.boundingBox with
  | none => {}
  | some b => b

/-- Line 36: `left = int((bbox.get('Left', 0) or 0) * width)`. -/
def rawLeft (b : BoundingBox) (W : Int) : Int := pyInt (getOr0 b.Left * (W : Rat))

/-- Line 37: `top = int((bbox.get('Top', 0) or 0) * height)`. -/
def rawTop (b : BoundingBox) (H : Int) : Int := pyInt (getOr0 b.Top * (H : Rat))

/-- Line 38: `box_width = int((bbox.get('Width', 0) or 0) * width)`. -/
def rawWidth (b : BoundingBox) (W : Int) : Int := pyInt (getOr0 b.Width * (W : Rat))

/-- Line 39: `box_height = int((bbox.get('Height', 0) or 0) * height)`. -/
def rawHeight (b : BoundingBox) (H : Int) : Int := pyInt (getOr0 b.Height * (H : Rat))

/-- Line 44: `right = min(width, left + box_width)`, computed from the
unclamped `left`. -/
def rectRight (b : BoundingBox) (W : Int) : Int := min W (rawLeft b W + rawWidth b W)

/-- Line 45: `bottom = min(height, top + box_height)`. -/
def rectBottom (b : BoundingBox) (H : Int) : Int := min H (rawTop b H + rawHeight b H)

/-- Line 46: `left = max(0, left)`. -/
def rectLeft (b : BoundingBox) (W : Int) : Int := max 0 (rawLeft b W)

/-- Line 47: `top = max(0, top)`. -/
def rectTop (b : BoundingBox) (H : Int) : Int := max 0 (rawTop b H)

/-- An absolute pixel rectangle: columns `[left, right)`, rows `[top, bottom)`. -/
structure AbsRect where
  left : Int
  top : Int
  right : Int
  bottom : Int
deriving DecidableEq

/-- The geometry-normalization stage, lines 35-50: scale the normalized box
to pixels, reject it if the computed width or height is non-positive
(line 41) or if it collapses after clamping (line 49), otherwise produce the
clamped absolute rectangle. -/
def normalizeBox (b : BoundingBox) (W H : Int) : Option AbsRect :=
  if rawWidth b W ≤ 0 ∨ rawHeight b H ≤ 0 then none
  else if rectRight b W ≤ rectLeft b W ∨ rectBottom b H ≤ rectTop b H then none
  else some ⟨rectLeft b W, rectTop b H, rectRight b W, rectBottom b H⟩

/-- Line 55: `strip_height = max(2, min((bottom - top) // 4, 24))`; Python
`//` is floor division, `Int.fdiv` here. -/
def stripHeight (b : BoundingBox) (H : Int) : Int :=
  max 2 (min (Int.fdiv (rectBottom b H - rectTop b H) 4) 24)

/-- Line 56: `strip_width = max(2, min((right - left) // 4, 24))`. -/
def stripWidth (b : BoundingBox) (W : Int) : Int :=
  max 2 (min (Int.fdiv (rectRight b W - rectLeft b W) 4) 24)

/-- The donor-selection `if`/`elif` chain, lines 67-74: try the strip above
the box, then below, then left, then right; the first side with room inside
the image is cropped from the working image, and `none` is returned when no
side fits. -/
def selectDonor (working : PImage) (left top right bottom sH sW : Int) :
    Option PImage :=
  if top - sH ≥ 0 then
    some (working.crop left (top - sH) right top)
  else if bottom + sH ≤ working.height then
    some (working.crop left bottom right (bottom + sH))
  else if left - sW ≥ 0 then
    some (working.crop (left - sW) top left bottom)
  else if right + sW ≤ working.width then
    some (working.crop right top (right + sW) bottom)
  else none

/-- One iteration of the `for instance in person_instances` loop
(lines 32-83) acting on the working image: normalize the box, skip it if
rejected, pick a donor strip, skip if none (or empty, line 77), else resize
the strip to the box and paste it over the box. -/
def removeStep (working : PImage) (inst : RekInstance) : PImage :=
  match normalizeBox (bboxOf inst) working.width working.height with
  | none => working
  | some R =>
    match selectDonor working R.left R.top R.right R.bottom
        (stripHeight (bboxOf inst) working.height)
        (stripWidth (bboxOf inst) working.width) with
    | none => working
    | some patch =>
      if patch.width = 0 ∨ patch.height = 0 then working
      else
        working.paste (patch.resize (R.right - R.left) (R.bottom - R.top))
          R.left R.top R.right R.bottom

/-- Model of `_remove_people_from_image` (lines 16-85): copy the source image once,
fold the per-instance edit over the instances in input order, return the
working copy. -/
def remove_people_from_image (source_image : PImage)
    (person_instances : List RekInstance) : PImage :=
  person_instances.foldl removeStep source_image.copy

end ObjectRemoval

namespace ObjectRemoval

/-- Test fixture: the box `{Left: 0.2, Top: 0.1, Width: 0.3, Height: 0.3}`
of the spec's end-to-end example. -/
def box1 : BoundingBox :=
  { Left := some (1/5), Top := some (1/10), Width := some (3/10), Height := some (3/10) }

/-- The detection instance carrying `box1`. -/
def inst1 : RekInstance := { boundingBox := some box1 }

/-- A second box `{Left: 0.2, Top: 0.4, Width: 0.3, Height: 0.3}` directly
below `box1`, whose above-donor strip lies inside `box1`'s target. -/
def box2 : BoundingBox :=
  { Left := some (1/5), Top := some (2/5), Width := some (3/10), Height := some (3/10) }

/-- The detection instance carrying `box2`. -/
def inst2 : RekInstance := { boundingBox := some box2 }

/-- A 100x100 RGB test image whose channel is 255 exactly on `box1`'s target
rectangle `[20,50) x [10,40)` and 0 everywhere else, so the donor regions are
distinguishable from the removed region. -/
def fixture : PImage :=
  ⟨100, 100, "RGB", fun x y =>
    if 20 ≤ x ∧ x < 50 ∧ 10 ≤ y ∧ y < 40 then 255 else 0⟩

/-- The working image after `box1` has been processed on `fixture`: the
above-donor strip (rows 3..9), resized to 30x30, pasted over the target. -/
def working1 : PImage :=
  fixture.paste ((fixture.crop 20 3 50 10).resize 30 30) 20 10 50 40

/-- A degenerate image with zero width (a PIL image dimension is never
negative, so nonpositive means zero). -/
def zeroImage : PImage := ⟨0, 100, "RGB", fun x y => (x + y).toNat⟩

/-- Exception-aware embedding of `_remove_people_from_image`.  The body of
the function (lines 16-85) contains no `raise` statement, no assertion and
no precondition check, and every library call it makes (`copy`, `size`,
`get`, `crop`, `resize`, `paste`) is total on the arguments the code passes,
so no execution path produces an error value. -/
def remove_people_from_image_exc (source_image : PImage)
    (person_instances : List RekInstance) : Except String PImage :=
  Except.ok (remove_people_from_image source_image person_instances)

/-- Two-buffer model of the call: the state carries the caller's
`source_image` buffer and the `working_image` buffer created by
`source_image.copy()` (line 29); each loop iteration rewrites only the
working buffer (lines 32-83), and both buffers are visible at the end. -/
def remove_people_run (source_image : PImage)
    (person_instances : List RekInstance) : PImage × PImage :=
  person_instances.foldl (fun st inst => (st.1, removeStep st.2 inst))
    (source_image, source_image.copy)

/-- An instance whose `BoundingBox` key is absent (or holds a falsy value). -/
def instEmpty : RekInstance := {}

/-- An instance whose box has `Left`, `Top` and `Height` but no `Width`. -/
def instNoWidth : RekInstance :=
  { boundingBox := some { Left := some (1/4), Top := some (1/4), Height := some (1/2) } }

/-- An image object on the Python heap: an object identity plus its value. -/
structure HeapImage where
  objId : Nat
  val : PImage

/-- Object-level model of `_remove_people_from_image`: `source_image.copy()`
allocates a fresh object (`freshId`, distinct from every live object), the
edits fold over that new object's value, and that object is returned. -/
def remove_people_from_image_alloc (src : HeapImage) (freshId : Nat)
    (insts : List RekInstance) : HeapImage :=
  ⟨freshId, insts.foldl removeStep src.val.copy⟩

/-- Copying an image does not change its observable value. -/
theorem copy_eq (img : PImage) : img.copy = img := rfl

/-- Unfolding lemma: the above-donor branch of the selection chain. -/
theorem selectDonor_above (w : PImage) (l t r b sH sW : Int) (h : t - sH ≥ 0) :
    selectDonor w l t r b sH sW = some (w.crop l (t - sH) r t) := by
  unfold selectDonor
  rw [if_pos h]

/-- Unfolding lemma: the below-donor branch of the selection chain. -/
theorem selectDonor_below (w : PImage) (l t r b sH sW : Int) (h1 : ¬(t - sH ≥ 0))
    (h2 : b + sH ≤ w.height) :
    selectDonor w l t r b sH sW = some (w.crop l b r (b + sH)) := by
  unfold selectDonor
  rw [if_neg h1, if_pos h2]

/-- Unfolding lemma: the left-donor branch of the selection chain. -/
theorem selectDonor_left (w : PImage) (l t r b sH sW : Int) (h1 : ¬(t - sH ≥ 0))
    (h2 : ¬(b + sH ≤ w.height)) (h3 : l - sW ≥ 0) :
    selectDonor w l t r b sH sW = some (w.crop (l - sW) t l b) := by
  unfold selectDonor
  rw [if_neg h1, if_neg h2, if_pos h3]

/-- Unfolding lemma: the right-donor branch of the selection chain. -/
theorem selectDonor_right (w : PImage) (l t r b sH sW : Int) (h1 : ¬(t - sH ≥ 0))
    (h2 : ¬(b + sH ≤ w.height)) (h3 : ¬(l - sW ≥ 0)) (h4 : r + sW ≤ w.width) :
    selectDonor w l t r b sH sW = some (w.crop r t (r + sW) b) := by
  unfold selectDonor
  rw [if_neg h1, if_neg h2, if_neg h3, if_pos h4]

/-- Unfolding lemma: no side fits, no donor. -/
theorem selectDonor_none (w : PImage) (l t r b sH sW : Int) (h1 : ¬(t - sH ≥ 0))
    (h2 : ¬(b + sH ≤ w.height)) (h3 : ¬(l - sW ≥ 0)) (h4 : ¬(r + sW ≤ w.width)) :
    selectDonor w l t r b sH sW = none := by
  unfold selectDonor
  rw [if_neg h1, if_neg h2, if_neg h3, if_neg h4]

/-- Unfolding lemma: a rejected box leaves the working image untouched. -/
theorem removeStep_of_rejected (w : PImage) (inst : RekInstance)
    (hR : normalizeBox (bboxOf inst) w.width w.height = none) :
    removeStep w inst = w := by
  unfold removeStep
  rw [hR]

/-- Unfolding lemma: an accepted box with no donor leaves the working image
untouched. -/
theorem removeStep_of_noDonor (w : PImage) (inst : RekInstance) (R : AbsRect)
    (hR : normalizeBox (bboxOf inst) w.width w.height = some R)
    (hD : selectDonor w R.left R.top R.right R.bottom
        (stripHeight (bboxOf inst) w.height) (stripWidth (bboxOf inst) w.width) = none) :
    removeStep w inst = w := by
  unfold removeStep
  simp only [hR, hD]

/-- Unfolding lemma: an accepted box whose donor strip has a zero dimension
is skipped (line 77). -/
theorem removeStep_of_empty (w : PImage) (inst : RekInstance) (R : AbsRect)
    (patch : PImage)
    (hR : normalizeBox (bboxOf inst) w.width w.height = some R)
    (hD : selectDonor w R.left R.top R.right R.bottom
        (stripHeight (bboxOf inst) w.height) (stripWidth (bboxOf inst) w.width) = some patch)
    (hz : patch.width = 0 ∨ patch.height = 0) :
    removeStep w inst = w := by
  unfold removeStep
  simp only [hR, hD]
  rw [if_pos hz]

/-- Unfolding lemma: an accepted box with a non-empty donor strip pastes the
resized strip over the box. -/
theorem removeStep_of_donor (w : PImage) (inst : RekInstance) (R : AbsRect)
    (patch : PImage)
    (hR : normalizeBox (bboxOf inst) w.width w.height = some R)
    (hD : selectDonor w R.left R.top R.right R.bottom
        (stripHeight (bboxOf inst) w.height) (stripWidth (bboxOf inst) w.width) = some patch)
    (hw : ¬(patch.width = 0 ∨ patch.height = 0)) :
    removeStep w inst =
      w.paste (patch.resize (R.right - R.left) (R.bottom - R.top))
        R.left R.top R.right R.bottom := by
  unfold removeStep
  simp only [hR, hD]
  rw [if_neg hw]

/-- The spec's example box on a 100x100 image is accepted as the rectangle
`{left 20, top 10, right 50, bottom 40}`. -/
theorem box1_rect : normalizeBox box1 100 100 = some ⟨20, 10, 50, 40⟩ := by
  norm_num [normalizeBox, rectLeft, rectTop, rectRight, rectBottom,
    rawLeft, rawTop, rawWidth, rawHeight, getOr0, pyInt, box1]

/-- The spec's example box has strip height `clamp(30 // 4, 2, 24) = 7`. -/
theorem box1_stripHeight : stripHeight box1 100 = 7 := by
  norm_num [stripHeight, rectBottom, rectTop, rawTop, rawHeight, getOr0, pyInt, box1]
  decide

/-- The spec's example box has strip width `clamp(30 // 4, 2, 24) = 7`. -/
theorem box1_stripWidth : stripWidth box1 100 = 7 := by
  norm_num [stripWidth, rectRight, rectLeft, rawLeft, rawWidth, getOr0, pyInt, box1]
  decide

/-- The second box on a 100x100 image is accepted as
`{left 20, top 40, right 50, bottom 70}`. -/
theorem box2_rect : normalizeBox box2 100 100 = some ⟨20, 40, 50, 70⟩ := by
  norm_num [normalizeBox, rectLeft, rectTop, rectRight, rectBottom,
    rawLeft, rawTop, rawWidth, rawHeight, getOr0, pyInt, box2]

/-- The second box's strips are 7 pixels thick as well. -/
theorem box2_strips : stripHeight box2 100 = 7 ∧ stripWidth box2 100 = 7 := by
  constructor
  · norm_num [stripHeight, rectBottom, rectTop, rawTop, rawHeight, getOr0, pyInt, box2]
    decide
  · norm_num [stripWidth, rectRight, rectLeft, rawLeft, rawWidth, getOr0, pyInt, box2]
    decide

/-- Processing `fixture` with the single spec-example instance pastes the
resized above-donor strip over the target rectangle. -/
theorem step1_eq : remove_people_from_image fixture [inst1] = working1 := by
  show removeStep fixture.copy inst1 = _
  rw [copy_eq]
  rw [removeStep_of_donor fixture inst1 ⟨20, 10, 50, 40⟩ (fixture.crop 20 3 50 10)
    box1_rect
    (by show selectDonor fixture 20 10 50 40 (stripHeight box1 100) (stripWidth box1 100) = _
        rw [box1_stripHeight, box1_stripWidth]
        exact selectDonor_above fixture 20 10 50 40 7 7 (by decide))
    (by decide)]
  rfl

/-- The first clamp in `srcCoord` keeps the sampled coordinate nonnegative. -/
theorem srcCoord_nonneg (outPos outSize inSize : Int) :
    0 ≤ srcCoord outPos outSize inSize :=
  le_max_left 0 _

/-- The second clamp in `srcCoord` keeps the sampled coordinate within the
source, provided the source dimension is at least one pixel. -/
theorem srcCoord_le (outPos outSize inSize : Int) (h : 1 ≤ inSize) :
    srcCoord outPos outSize inSize ≤ (inSize : Rat) - 1 := by
  unfold srcCoord
  apply max_le
  · have h1 : (1 : Rat) ≤ (inSize : Rat) := by exact_mod_cast h
    linarith
  · exact min_le_right _ _

/-- Bilinear resampling of an image whose in-range pixels all carry the
value `c` produces `c` at every output position: the four samples are taken
at clamped in-range coordinates, their convex combination is exactly `c`,
and rounding returns `c`. -/
theorem resize_pix_const (img : PImage) (c : Pixel) (w h : Int)
    (hw : 1 ≤ img.width) (hh : 1 ≤ img.height)
    (hc : ∀ a b : Int, 0 ≤ a → a ≤ img.width - 1 → 0 ≤ b → b ≤ img.height - 1 →
      img.pix a b = c)
    (x y : Int) : (img.resize w h).pix x y = c := by
  show bilinearAt img (srcCoord x w img.width) (srcCoord y h img.height) = c
  have hsx0 : 0 ≤ srcCoord x w img.width := srcCoord_nonneg _ _ _
  have hsy0 : 0 ≤ srcCoord y h img.height := srcCoord_nonneg _ _ _
  have hsx1 : srcCoord x w img.width ≤ (img.width : Rat) - 1 := srcCoord_le _ _ _ hw
  have hsy1 : srcCoord y h img.height ≤ (img.height : Rat) - 1 := srcCoord_le _ _ _ hh
  have hfl : ∀ (s : Rat) (d : Int), 0 ≤ s → s ≤ (d : Rat) - 1 →
      0 ≤ ⌊s⌋ ∧ ⌊s⌋ ≤ d - 1 := by
    intro s d h0 h1
    constructor
    · exact Int.le_floor.mpr (by exact_mod_cast h0)
    · have h2 : ⌊s⌋ ≤ ⌊(d : Rat) - 1⌋ := Int.floor_mono h1
      have h3 : ((d : Rat) - 1) = ((d - 1 : Int) : Rat) := by push_cast; ring
      rw [h3, Int.floor_intCast] at h2
      exact h2
  obtain ⟨hx0l, hx0u⟩ := hfl _ img.width hsx0 hsx1
  obtain ⟨hy0l, hy0u⟩ := hfl _ img.height hsy0 hsy1
  have hx1l : (0 : Int) ≤ min (⌊srcCoord x w img.width⌋ + 1) (img.width - 1) :=
    le_min (by omega) (by omega)
  have hx1u : min (⌊srcCoord x w img.width⌋ + 1) (img.width - 1) ≤ img.width - 1 :=
    min_le_right _ _
  have hy1l : (0 : Int) ≤ min (⌊srcCoord y h img.height⌋ + 1) (img.height - 1) :=
    le_min (by omega) (by omega)
  have hy1u : min (⌊srcCoord y h img.height⌋ + 1) (img.height - 1) ≤ img.height - 1 :=
    min_le_right _ _
  unfold bilinearAt
  have hv : bilinearVal img (srcCoord x w img.width) (srcCoord y h img.height) = c := by
    unfold bilinearVal
    rw [hc _ _ hx0l hx0u hy0l hy0u, hc _ _ hx1l hx1u hy0l hy0u,
        hc _ _ hx0l hx0u hy1l hy1u, hc _ _ hx1l hx1u hy1l hy1u]
    ring
  rw [hv]
  have hfc : ⌊(c : Rat) + 1/2⌋ = (c : Int) := by
    rw [Int.floor_eq_iff]
    constructor
    · push_cast
      linarith
    · push_cast
      linarith
  rw [hfc, Int.toNat_natCast]

/-- Resizing a crop whose source region is constant gives that constant at
every output position. -/
theorem crop_resize_const (img : PImage) (l t r b : Int) (c : Pixel) (w h : Int)
    (hlr : l + 1 ≤ r) (htb : t + 1 ≤ b)
    (hc : ∀ u v : Int, l ≤ u → u < r → t ≤ v → v < b → img.pix u v = c)
    (x y : Int) : ((img.crop l t r b).resize w h).pix x y = c := by
  apply resize_pix_const
  · show (1 : Int) ≤ r - l
    omega
  · show (1 : Int) ≤ b - t
    omega
  · intro a a' ha hau hb hbu
    have hau' : a ≤ r - l - 1 := hau
    have hbu' : a' ≤ b - t - 1 := hbu
    show img.pix (l + a) (t + a') = c
    exact hc _ _ (by omega) (by omega) (by omega) (by omega)

/-- The donor strip of the example box lies above the target, so the resized
patch is constantly 0 on `fixture`. -/
theorem patch1_pix (x y : Int) :
    ((fixture.crop 20 3 50 10).resize 30 30).pix x y = 0 := by
  apply crop_resize_const fixture 20 3 50 10 0 30 30 (by decide) (by decide)
  intro u v h1 h2 h3 h4
  show (if 20 ≤ u ∧ u < 50 ∧ 10 ≤ v ∧ v < 40 then 255 else 0) = 0
  rw [if_neg (by omega)]

/-- Inside the example target rectangle, the edited working image is 0. -/
theorem working1_pix_in (x y : Int) (h1 : 20 ≤ x) (h2 : x < 50) (h3 : 10 ≤ y)
    (h4 : y < 40) : working1.pix x y = 0 := by
  show (if 20 ≤ x ∧ x < 50 ∧ 10 ≤ y ∧ y < 40
      then ((fixture.crop 20 3 50 10).resize 30 30).pix (x - 20) (y - 10)
      else fixture.pix x y) = 0
  rw [if_pos ⟨h1, h2, h3, h4⟩]
  exact patch1_pix _ _

/-- Outside the example target rectangle, the edited working image keeps the
source pixel. -/
theorem working1_pix_out (x y : Int) (h : ¬(20 ≤ x ∧ x < 50 ∧ 10 ≤ y ∧ y < 40)) :
    working1.pix x y = fixture.pix x y := by
  show (if 20 ≤ x ∧ x < 50 ∧ 10 ≤ y ∧ y < 40
      then ((fixture.crop 20 3 50 10).resize 30 30).pix (x - 20) (y - 10)
      else fixture.pix x y) = fixture.pix x y
  rw [if_neg h]

/-- Processing the second box on the already-edited `working1` pastes a strip
cropped from `working1` itself (rows 33..39 of the current working image). -/
theorem step2_eq :
    removeStep working1 inst2 =
      working1.paste ((working1.crop 20 33 50 40).resize 30 30) 20 40 50 70 := by
  rw [removeStep_of_donor working1 inst2 ⟨20, 40, 50, 70⟩ (working1.crop 20 33 50 40)
    box2_rect
    (by show selectDonor working1 20 40 50 70 (stripHeight box2 100) (stripWidth box2 100) = _
        rw [box2_strips.1, box2_strips.2]
        exact selectDonor_above working1 20 40 50 70 7 7 (by decide))
    (by decide)]
  rfl

/-- After the first box's edit, the second box's donor rows are all 0, so its
resized patch is constantly 0. -/
theorem patch2_pix (x y : Int) :
    ((working1.crop 20 33 50 40).resize 30 30).pix x y = 0 := by
  apply crop_resize_const working1 20 33 50 40 0 30 30 (by decide) (by decide)
  intro u v h1 h2 h3 h4
  exact working1_pix_in u v (by omega) (by omega) (by omega) (by omega)

/-- Processing the second box alone on the pristine `fixture` pastes a strip
cropped from the source, whose rows 33..39 are all 255. -/
theorem step2_alone_eq :
    remove_people_from_image fixture [inst2] =
      fixture.paste ((fixture.crop 20 33 50 40).resize 30 30) 20 40 50 70 := by
  show removeStep fixture.copy inst2 = _
  rw [copy_eq]
  rw [removeStep_of_donor fixture inst2 ⟨20, 40, 50, 70⟩ (fixture.crop 20 33 50 40)
    box2_rect
    (by show selectDonor fixture 20 40 50 70 (stripHeight box2 100) (stripWidth box2 100) = _
        rw [box2_strips.1, box2_strips.2]
        exact selectDonor_above fixture 20 40 50 70 7 7 (by decide))
    (by decide)]
  rfl

/-- On the pristine source, the second box's donor rows are all 255, so its
resized patch is constantly 255. -/
theorem patch2_alone_pix (x y : Int) :
    ((fixture.crop 20 33 50 40).resize 30 30).pix x y = 255 := by
  apply crop_resize_const fixture 20 33 50 40 255 30 30 (by decide) (by decide)
  intro u v h1 h2 h3 h4
  show (if 20 ≤ u ∧ u < 50 ∧ 10 ≤ v ∧ v < 40 then 255 else 0) = 255
  rw [if_pos (by omega)]

/-- The falsy-coalescing field read agrees with plain defaulting to 0. -/
theorem getOr0_eq_getD (o : Option Rat) : getOr0 o = o.getD 0 := by
  cases o with
  | none => rfl
  | some x =>
    show (if x = 0 then 0 else x) = x
    by_cases h : x = 0
    · rw [if_pos h, h]
    · rw [if_neg h]

/-- Python truncation agrees with the floor on nonnegative values. -/
theorem pyInt_eq_floor (q : Rat) (h : 0 ≤ q) : pyInt q = ⌊q⌋ := by
  unfold pyInt
  rw [if_pos h]

/-- Python floor division by 4 agrees with the rational floor of division
by 4. -/
theorem fdiv_four_eq_floor (n : Int) : Int.fdiv n 4 = ⌊(n : Rat) / 4⌋ := by
  have h := Rat.floor_intCast_div_natCast n 4
  push_cast at h
  rw [h]
  exact Int.fdiv_eq_ediv _ (by norm_num)

/-- If the first rejection test of the normalizer fires, the box is rejected. -/
theorem normalizeBox_none_left (b : BoundingBox) (W H : Int)
    (h : rawWidth b W ≤ 0 ∨ rawHeight b H ≤ 0) : normalizeBox b W H = none := by
  unfold normalizeBox
  rw [if_pos h]

/-- On a zero-width image the computed box width is zero. -/
theorem rawWidth_zero_width (b : BoundingBox) : rawWidth b 0 = 0 := by
  unfold rawWidth
  norm_num [pyInt]

/-- On a zero-height image the computed box height is zero. -/
theorem rawHeight_zero_height (b : BoundingBox) : rawHeight b 0 = 0 := by
  unfold rawHeight
  norm_num [pyInt]

/-- On an image with a zero dimension every box is rejected, so one loop
iteration is the identity. -/
theorem removeStep_of_zero_dim (w : PImage) (inst : RekInstance)
    (h : w.width = 0 ∨ w.height = 0) : removeStep w inst = w := by
  apply removeStep_of_rejected
  apply normalizeBox_none_left
  rcases h with h | h
  · rw [h, rawWidth_zero_width]
    exact Or.inl le_rfl
  · rw [h, rawHeight_zero_height]
    exact Or.inr le_rfl

/-- One loop iteration preserves the image's width, height and colour mode:
every branch either returns the working image or pastes into it. -/
theorem removeStep_preserves (w : PImage) (inst : RekInstance) :
    (removeStep w inst).width = w.width ∧ (removeStep w inst).height = w.height ∧
    (removeStep w inst).mode = w.mode := by
  cases hR : normalizeBox (bboxOf inst) w.width w.height with
  | none =>
    rw [removeStep_of_rejected w inst hR]
    exact ⟨rfl, rfl, rfl⟩
  | some R =>
    cases hD : selectDonor w R.left R.top R.right R.bottom
        (stripHeight (bboxOf inst) w.height) (stripWidth (bboxOf inst) w.width) with
    | none =>
      rw [removeStep_of_noDonor w inst R hR hD]
      exact ⟨rfl, rfl, rfl⟩
    | some patch =>
      by_cases hz : patch.width = 0 ∨ patch.height = 0
      · rw [removeStep_of_empty w inst R patch hR hD hz]
        exact ⟨rfl, rfl, rfl⟩
      · rw [removeStep_of_donor w inst R patch hR hD hz]
        exact ⟨rfl, rfl, rfl⟩

/-- Folding the loop body preserves width, height and colour mode. -/
theorem foldl_removeStep_preserves (l : List RekInstance) :
    ∀ w : PImage, (l.foldl removeStep w).width = w.width ∧
      (l.foldl removeStep w).height = w.height ∧
      (l.foldl removeStep w).mode = w.mode := by
  induction l with
  | nil => intro w; exact ⟨rfl, rfl, rfl⟩
  | cons i t ih =>
    intro w
    obtain ⟨h1, h2, h3⟩ := ih (removeStep w i)
    obtain ⟨g1, g2, g3⟩ := removeStep_preserves w i
    exact ⟨h1.trans g1, h2.trans g2, h3.trans g3⟩

/-- On an image with a zero dimension the whole loop is the identity. -/
theorem foldl_removeStep_zero_dim (l : List RekInstance) :
    ∀ w : PImage, w.width = 0 ∨ w.height = 0 → l.foldl removeStep w = w := by
  induction l with
  | nil => intro w _; rfl
  | cons i t ih =>
    intro w h
    have hs := removeStep_of_zero_dim w i h
    show t.foldl removeStep (removeStep w i) = w
    rw [hs]
    exact ih w h

/-- The two-buffer loop never rewrites the first (source) buffer. -/
theorem foldl_pair_fst (l : List RekInstance) :
    ∀ a b : PImage,
      l.foldl (fun st inst => (st.1, removeStep st.2 inst)) (a, b) =
        (a, l.foldl removeStep b) := by
  induction l with
  | nil => intro a b; rfl
  | cons i t ih => intro a b; exact ih a (removeStep b i)

/-- Claim C1, counterexample: on an image with width 0 (a nonpositive
dimension) and a nonempty instance list, the operation does not fail fast
with a precondition violation: it returns normally, and the result is just
the unmodified working copy of the source. -/
theorem claim1_counterexample :
    (remove_people_from_image_exc zeroImage [inst1]).isOk = true ∧
    remove_people_from_image zeroImage [inst1] = zeroImage.copy := by
  constructor
  · rfl
  · show removeStep zeroImage.copy inst1 = zeroImage.copy
    exact removeStep_of_zero_dim _ _ (Or.inl rfl)

/-- Claim C1 (amended): for every source image and every list of detection
instances the Region Remover completes without failing; and for an image
with width or height equal to 0 (image dimensions are never negative, so
nonpositive means zero) it does not fail fast: every box is rejected by the
degenerate-box check and every pixel of the returned copy equals the
corresponding source pixel. -/
theorem claim1_total_no_precondition (s : PImage) (l : List RekInstance) :
    (remove_people_from_image_exc s l).isOk = true ∧
    (s.width = 0 ∨ s.height = 0 →
      ∀ x y : Int, (remove_people_from_image s l).pix x y = s.pix x y) := by
  constructor
  · rfl
  · intro h x y
    show (l.foldl removeStep s.copy).pix x y = s.pix x y
    rw [foldl_removeStep_zero_dim l s.copy h]
    rfl

/-- Witness for claim C1's amended theorem at a concrete zero-width image. -/
theorem claim1_total_no_precondition_witness :
    (remove_people_from_image_exc zeroImage [inst2]).isOk = true ∧
    (remove_people_from_image zeroImage [inst2]).pix 3 4 = zeroImage.pix 3 4 :=
  ⟨(claim1_total_no_precondition zeroImage [inst2]).1,
   (claim1_total_no_precondition zeroImage [inst2]).2 (Or.inl rfl) 3 4⟩

/-- Claim C2: donor selection tries the four sides in the strict order
above, below, left, right, and the first side that fits is used.  The above
strip (rows from top minus strip height up to top, spanning the box's
columns) is taken whenever it fits -- in particular also when below would
fit too; otherwise below, otherwise left, otherwise right; and when no side
fits the donor is `none` and the loop iteration leaves the working image
(in particular the rectangle's pixels) unchanged. -/
theorem claim2_donor_priority (w : PImage) (l t r b sH sW : Int) :
    (t - sH ≥ 0 → selectDonor w l t r b sH sW = some (w.crop l (t - sH) r t)) ∧
    (t - sH ≥ 0 → b + sH ≤ w.height →
      selectDonor w l t r b sH sW = some (w.crop l (t - sH) r t)) ∧
    (¬(t - sH ≥ 0) → b + sH ≤ w.height →
      selectDonor w l t r b sH sW = some (w.crop l b r (b + sH))) ∧
    (¬(t - sH ≥ 0) → ¬(b + sH ≤ w.height) → l - sW ≥ 0 →
      selectDonor w l t r b sH sW = some (w.crop (l - sW) t l b)) ∧
    (¬(t - sH ≥ 0) → ¬(b + sH ≤ w.height) → ¬(l - sW ≥ 0) → r + sW ≤ w.width →
      selectDonor w l t r b sH sW = some (w.crop r t (r + sW) b)) ∧
    (¬(t - sH ≥ 0) → ¬(b + sH ≤ w.height) → ¬(l - sW ≥ 0) → ¬(r + sW ≤ w.width) →
      selectDonor w l t r b sH sW = none) ∧
    (∀ (inst : RekInstance) (R : AbsRect),
      normalizeBox (bboxOf inst) w.width w.height = some R →
      selectDonor w R.left R.top R.right R.bottom
        (stripHeight (bboxOf inst) w.height) (stripWidth (bboxOf inst) w.width) = none →
      removeStep w inst = w) := by
  refine ⟨?_, ?_, ?_, ?_, ?_, ?_, ?_⟩
  · intro h
    exact selectDonor_above w l t r b sH sW h
  · intro h _
    exact selectDonor_above w l t r b sH sW h
  · intro h1 h2
    exact selectDonor_below w l t r b sH sW h1 h2
  · intro h1 h2 h3
    exact selectDonor_left w l t r b sH sW h1 h2 h3
  · intro h1 h2 h3 h4
    exact selectDonor_right w l t r b sH sW h1 h2 h3 h4
  · intro h1 h2 h3 h4
    exact selectDonor_none w l t r b sH sW h1 h2 h3 h4
  · intro inst R hR hD
    exact removeStep_of_noDonor w inst R hR hD

/-- Witness for claim C2: the above-donor case on the spec's example
rectangle, and the no-donor case on a rectangle covering the whole image. -/
theorem claim2_donor_priority_witness :
    selectDonor fixture 20 10 50 40 7 7 = some (fixture.crop 20 (10 - 7) 50 10) ∧
    selectDonor fixture 0 0 100 100 2 2 = none :=
  ⟨(claim2_donor_priority fixture 20 10 50 40 7 7).1 (by decide),
   (claim2_donor_priority fixture 0 0 100 100 2 2).2.2.2.2.2.1 (by decide) (by decide)
     (by decide) (by decide)⟩

/-- Claim C5: the caller's source image is never mutated.  In the two-buffer
model of the call the loop rewrites only the working buffer, so after the
call the source buffer is unchanged (pixel for pixel), and the returned
working buffer is the usual result. -/
theorem claim5_source_not_mutated (s : PImage) (l : List RekInstance) :
    (remove_people_run s l).1 = s ∧
    (∀ x y : Int, (remove_people_run s l).1.pix x y = s.pix x y) ∧
    (remove_people_run s l).2 = remove_people_from_image s l := by
  have h := foldl_pair_fst l s s.copy
  unfold remove_people_run
  rw [h]
  exact ⟨rfl, fun x y => rfl, rfl⟩

/-- Claim C8: the returned image has exactly the width, height and colour
mode of the input image, for every input and every instance list. -/
theorem claim8_dims_mode_preserved (s : PImage) (l : List RekInstance) :
    (remove_people_from_image s l).width = s.width ∧
    (remove_people_from_image s l).height = s.height ∧
    (remove_people_from_image s l).mode = s.mode :=
  foldl_removeStep_preserves l s.copy

/-- Claim C10: with an empty instance list the call returns a fresh object,
distinct from the caller's source object, equal to the plain result of the
call and pixel-identical to the source image. -/
theorem claim10_empty_instances (src : HeapImage) (freshId : Nat)
    (hfresh : freshId ≠ src.objId) :
    (remove_people_from_image_alloc src freshId []).objId ≠ src.objId ∧
    (remove_people_from_image_alloc src freshId []).val =
      remove_people_from_image src.val [] ∧
    (∀ x y : Int,
      (remove_people_from_image_alloc src freshId []).val.pix x y = src.val.pix x y) :=
  ⟨hfresh, rfl, fun _ _ => rfl⟩

/-- Claim C4: on the 100x100 test image with the single box
`{Left: 0.2, Top: 0.1, Width: 0.3, Height: 0.3}`, the Region Remover
computes the absolute rectangle `{20, 10, 50, 40}`, strip height 7 and
strip width 7, selects the above donor (the crop of rows 3..9, columns
20..49, whose pixel `(x, y)` is source pixel `(20 + x, 3 + y)`), and in the
returned image every pixel inside the target rectangle differs from the
source while every pixel outside it is bit-identical to the source. -/
theorem claim4_end_to_end :
    normalizeBox box1 100 100 = some ⟨20, 10, 50, 40⟩ ∧
    stripHeight box1 100 = 7 ∧ stripWidth box1 100 = 7 ∧
    selectDonor fixture 20 10 50 40 7 7 = some (fixture.crop 20 3 50 10) ∧
    (∀ x y : Int, (fixture.crop 20 3 50 10).pix x y = fixture.pix (20 + x) (3 + y)) ∧
    (∀ x y : Int, 20 ≤ x → x < 50 → 10 ≤ y → y < 40 →
      (remove_people_from_image fixture [inst1]).pix x y ≠ fixture.pix x y) ∧
    (∀ x y : Int, ¬(20 ≤ x ∧ x < 50 ∧ 10 ≤ y ∧ y < 40) →
      (remove_people_from_image fixture [inst1]).pix x y = fixture.pix x y) := by
  refine ⟨box1_rect, box1_stripHeight, box1_stripWidth, ?_, fun x y => rfl, ?_, ?_⟩
  · exact selectDonor_above fixture 20 10 50 40 7 7 (by decide)
  · intro x y h1 h2 h3 h4
    rw [step1_eq, working1_pix_in x y h1 h2 h3 h4]
    show (0 : Pixel) ≠ if 20 ≤ x ∧ x < 50 ∧ 10 ≤ y ∧ y < 40 then 255 else 0
    rw [if_pos ⟨h1, h2, h3, h4⟩]
    decide
  · intro x y h
    rw [step1_eq]
    exact working1_pix_out x y h

/-- Witness for claim C4: an inside pixel changes and an outside pixel does
not, at concrete coordinates. -/
theorem claim4_end_to_end_witness :
    (remove_people_from_image fixture [inst1]).pix 25 20 ≠ fixture.pix 25 20 ∧
    (remove_people_from_image fixture [inst1]).pix 60 60 = fixture.pix 60 60 :=
  ⟨claim4_end_to_end.2.2.2.2.2.1 25 20 (by decide) (by decide) (by decide) (by decide),
   claim4_end_to_end.2.2.2.2.2.2 60 60 (by decide)⟩

/-- Claim C6: the boxes are processed exactly in input order (the fold
starts with the first listed box on the fresh working copy), and each box's
donor strip is cropped from the current working image: on the fixture, the
second box's above-donor rows 33..39 lie inside the first box's freshly
overwritten target, so processing both boxes writes 0 into the second
target, while processing the second box alone (pristine donors) writes 255
-- the second box's result is influenced by the first box's edit. -/
theorem claim6_input_order_working_donor :
    (∀ (s : PImage) (l : List RekInstance),
      remove_people_from_image s l = l.foldl removeStep s.copy) ∧
    (∀ (s : PImage) (i : RekInstance) (l : List RekInstance),
      remove_people_from_image s (i :: l) = l.foldl removeStep (removeStep s.copy i)) ∧
    removeStep fixture.copy inst1 = working1 ∧
    selectDonor working1 20 40 50 70 7 7 = some (working1.crop 20 33 50 40) ∧
    (∀ x y : Int, (working1.crop 20 33 50 40).pix x y = working1.pix (20 + x) (33 + y)) ∧
    (remove_people_from_image fixture [inst1, inst2]).pix 25 50 = 0 ∧
    (remove_people_from_image fixture [inst2]).pix 25 50 = 255 ∧
    fixture.pix 25 50 = 0 ∧
    (remove_people_from_image fixture [inst1, inst2]).pix 25 50 ≠
      (remove_people_from_image fixture [inst2]).pix 25 50 := by
  have hs1 : removeStep fixture.copy inst1 = working1 := step1_eq
  have h2box : remove_people_from_image fixture [inst1, inst2] =
      working1.paste ((working1.crop 20 33 50 40).resize 30 30) 20 40 50 70 := by
    show removeStep (removeStep fixture.copy inst1) inst2 = _
    rw [hs1]
    exact step2_eq
  have hboth : (remove_people_from_image fixture [inst1, inst2]).pix 25 50 = 0 := by
    rw [h2box]
    show (if 20 ≤ (25 : Int) ∧ (25 : Int) < 50 ∧ 40 ≤ (50 : Int) ∧ (50 : Int) < 70
        then ((working1.crop 20 33 50 40).resize 30 30).pix (25 - 20) (50 - 40)
        else working1.pix 25 50) = 0
    rw [if_pos (by decide)]
    exact patch2_pix _ _
  have halone : (remove_people_from_image fixture [inst2]).pix 25 50 = 255 := by
    rw [step2_alone_eq]
    show (if 20 ≤ (25 : Int) ∧ (25 : Int) < 50 ∧ 40 ≤ (50 : Int) ∧ (50 : Int) < 70
        then ((fixture.crop 20 33 50 40).resize 30 30).pix (25 - 20) (50 - 40)
        else fixture.pix 25 50) = 255
    rw [if_pos (by decide)]
    exact patch2_alone_pix _ _
  refine ⟨fun s l => rfl, fun s i l => rfl, hs1, ?_, fun x y => rfl, hboth, halone,
    by decide, ?_⟩
  · exact selectDonor_above working1 20 40 50 70 7 7 (by decide)
  · rw [hboth, halone]
    decide

/-- Witness for claim C6: the order-structure conjunct applied at a concrete
input. -/
theorem claim6_input_order_working_donor_witness :
    remove_people_from_image fixture [inst2] = [inst2].foldl removeStep fixture.copy ∧
    (remove_people_from_image fixture [inst1, inst2]).pix 25 50 = 0 :=
  ⟨claim6_input_order_working_donor.1 fixture [inst2],
   claim6_input_order_working_donor.2.2.2.2.2.1⟩

/-- Claim C3: for boxes with normalized fields in the unit interval on a
positive-dimension image, the scaled coordinates are the floors of the
products (absent fields defaulting to 0), a box is rejected exactly when its
computed width or height is nonpositive or the clamped rectangle collapses,
and an accepted box yields exactly the clamped rectangle. -/
theorem claim3_geometry_normalizer (b : BoundingBox) (W H : Int)
    (hW : 0 < W) (hH : 0 < H)
    (hL : ∀ q : Rat, b.Left = some q → 0 ≤ q ∧ q ≤ 1)
    (hT : ∀ q : Rat, b.Top = some q → 0 ≤ q ∧ q ≤ 1)
    (hWd : ∀ q : Rat, b.Width = some q → 0 ≤ q ∧ q ≤ 1)
    (hHt : ∀ q : Rat, b.Height = some q → 0 ≤ q ∧ q ≤ 1) :
    rawLeft b W = ⌊b.Left.getD 0 * (W : Rat)⌋ ∧
    rawTop b H = ⌊b.Top.getD 0 * (H : Rat)⌋ ∧
    rawWidth b W = ⌊b.Width.getD 0 * (W : Rat)⌋ ∧
    rawHeight b H = ⌊b.Height.getD 0 * (H : Rat)⌋ ∧
    (normalizeBox b W H = none ↔
      rawWidth b W ≤ 0 ∨ rawHeight b H ≤ 0 ∨
      min W (rawLeft b W + rawWidth b W) ≤ max 0 (rawLeft b W) ∨
      min H (rawTop b H + rawHeight b H) ≤ max 0 (rawTop b H)) ∧
    (∀ R : AbsRect, normalizeBox b W H = some R →
      R.left = max 0 (rawLeft b W) ∧ R.top = max 0 (rawTop b H) ∧
      R.right = min W (rawLeft b W + rawWidth b W) ∧
      R.bottom = min H (rawTop b H + rawHeight b H)) := by
  have hval : ∀ o : Option Rat, (∀ q : Rat, o = some q → 0 ≤ q ∧ q ≤ 1) →
      0 ≤ o.getD 0 := by
    intro o ho
    cases o with
    | none => exact le_refl 0
    | some q => exact (ho q rfl).1
  have hfloor : ∀ (o : Option Rat) (D : Int), 0 < D →
      (∀ q : Rat, o = some q → 0 ≤ q ∧ q ≤ 1) →
      pyInt (getOr0 o * (D : Rat)) = ⌊o.getD 0 * (D : Rat)⌋ := by
    intro o D hD ho
    rw [getOr0_eq_getD]
    apply pyInt_eq_floor
    apply mul_nonneg (hval o ho)
    exact_mod_cast hD.le
  refine ⟨hfloor b.Left W hW hL, hfloor b.Top H hH hT, hfloor b.Width W hW hWd,
    hfloor b.Height H hH hHt, ?_, ?_⟩
  · constructor
    · intro hnone
      by_cases h1 : rawWidth b W ≤ 0 ∨ rawHeight b H ≤ 0
      · rcases h1 with h | h
        · exact Or.inl h
        · exact Or.inr (Or.inl h)
      · unfold normalizeBox at hnone
        rw [if_neg h1] at hnone
        by_cases h2 : rectRight b W ≤ rectLeft b W ∨ rectBottom b H ≤ rectTop b H
        · rcases h2 with h | h
          · exact Or.inr (Or.inr (Or.inl h))
          · exact Or.inr (Or.inr (Or.inr h))
        · rw [if_neg h2] at hnone
          cases hnone
    · intro hcond
      rcases hcond with h | h | h | h
      · exact normalizeBox_none_left b W H (Or.inl h)
      · exact normalizeBox_none_left b W H (Or.inr h)
      · unfold normalizeBox
        by_cases h1 : rawWidth b W ≤ 0 ∨ rawHeight b H ≤ 0
        · rw [if_pos h1]
        · rw [if_neg h1,
            if_pos (Or.inl (show rectRight b W ≤ rectLeft b W from h))]
      · unfold normalizeBox
        by_cases h1 : rawWidth b W ≤ 0 ∨ rawHeight b H ≤ 0
        · rw [if_pos h1]
        · rw [if_neg h1,
            if_pos (Or.inr (show rectBottom b H ≤ rectTop b H from h))]
  · intro R hR
    unfold normalizeBox at hR
    by_cases h1 : rawWidth b W ≤ 0 ∨ rawHeight b H ≤ 0
    · rw [if_pos h1] at hR
      cases hR
    · rw [if_neg h1] at hR
      by_cases h2 : rectRight b W ≤ rectLeft b W ∨ rectBottom b H ≤ rectTop b H
      · rw [if_pos h2] at hR
        cases hR
      · rw [if_neg h2] at hR
        cases Option.some.inj hR
        exact ⟨rfl, rfl, rfl, rfl⟩

/-- Witness for claim C3 at the spec's example box on a 100x100 image. -/
theorem claim3_geometry_normalizer_witness :
    rawLeft box1 100 = ⌊box1.Left.getD 0 * ((100 : Int) : Rat)⌋ ∧
    (normalizeBox box1 100 100 = none ↔
      rawWidth box1 100 ≤ 0 ∨ rawHeight box1 100 ≤ 0 ∨
      min 100 (rawLeft box1 100 + rawWidth box1 100) ≤ max 0 (rawLeft box1 100) ∨
      min 100 (rawTop box1 100 + rawHeight box1 100) ≤ max 0 (rawTop box1 100)) := by
  have hfield : ∀ q0 : Rat, 0 ≤ q0 → q0 ≤ 1 →
      ∀ q : Rat, some q0 = some q → 0 ≤ q ∧ q ≤ 1 := by
    intro q0 h0 h1 q hq
    cases Option.some.inj hq
    exact ⟨h0, h1⟩
  have h := claim3_geometry_normalizer box1 100 100 (by norm_num) (by norm_num)
    (hfield (1/5) (by norm_num) (by norm_num))
    (hfield (1/10) (by norm_num) (by norm_num))
    (hfield (3/10) (by norm_num) (by norm_num))
    (hfield (3/10) (by norm_num) (by norm_num))
  exact ⟨h.1, h.2.2.2.2.1⟩

/-- Claim C7: for every accepted rectangle, the strip thickness equals
`max(2, min(floor((bottom - top) / 4), 24))` vertically and
`max(2, min(floor((right - left) / 4), 24))` horizontally. -/
theorem claim7_strip_thickness (b : BoundingBox) (W H : Int) (R : AbsRect)
    (hR : normalizeBox b W H = some R) :
    stripHeight b H = max 2 (min ⌊((R.bottom : Rat) - (R.top : Rat)) / 4⌋ 24) ∧
    stripWidth b W = max 2 (min ⌊((R.right : Rat) - (R.left : Rat)) / 4⌋ 24) := by
  have hfields : R.left = rectLeft b W ∧ R.top = rectTop b H ∧
      R.right = rectRight b W ∧ R.bottom = rectBottom b H := by
    unfold normalizeBox at hR
    by_cases h1 : rawWidth b W ≤ 0 ∨ rawHeight b H ≤ 0
    · rw [if_pos h1] at hR
      cases hR
    · rw [if_neg h1] at hR
      by_cases h2 : rectRight b W ≤ rectLeft b W ∨ rectBottom b H ≤ rectTop b H
      · rw [if_pos h2] at hR
        cases hR
      · rw [if_neg h2] at hR
        cases Option.some.inj hR
        exact ⟨rfl, rfl, rfl, rfl⟩
  obtain ⟨hl, ht, hr, hb⟩ := hfields
  constructor
  · rw [hb, ht]
    unfold stripHeight
    rw [fdiv_four_eq_floor]
    push_cast
    rfl
  · rw [hr, hl]
    unfold stripWidth
    rw [fdiv_four_eq_floor]
    push_cast
    rfl

/-- Witness for claim C7 at the spec's example box and rectangle. -/
theorem claim7_strip_thickness_witness :
    stripHeight box1 100 = max 2 (min ⌊(((40 : Int) : Rat) - ((10 : Int) : Rat)) / 4⌋ 24) ∧
    stripWidth box1 100 = max 2 (min ⌊(((50 : Int) : Rat) - ((20 : Int) : Rat)) / 4⌋ 24) :=
  claim7_strip_thickness box1 100 100 ⟨20, 10, 50, 40⟩ box1_rect

/-- Claim C9: an absent `BoundingBox` key, or an absent, `None` or falsy
field, is treated as 0; an instance with no usable box (its computed width
or height is nonpositive) is silently skipped, and the call never raises. -/
theorem claim9_missing_fields (w : PImage) (inst : RekInstance) :
    getOr0 none = 0 ∧
    (remove_people_from_image_exc w [inst]).isOk = true ∧
    (inst.boundingBox = none → removeStep w inst = w) ∧
    (∀ bb : BoundingBox, inst.boundingBox = some bb →
      (bb.Width = none ∨ bb.Width = some 0 ∨ bb.Height = none ∨ bb.Height = some 0) →
      removeStep w inst = w) := by
  refine ⟨rfl, rfl, ?_, ?_⟩
  · intro h
    apply removeStep_of_rejected
    apply normalizeBox_none_left
    obtain ⟨o⟩ := inst
    have h' : o = none := h
    subst h'
    left
    show rawWidth { } w.width ≤ 0
    norm_num [rawWidth, getOr0, pyInt]
  · intro bb hbb hfield
    apply removeStep_of_rejected
    apply normalizeBox_none_left
    obtain ⟨o⟩ := inst
    have h' : o = some bb := hbb
    subst h'
    rcases hfield with h | h | h | h
    · left
      show pyInt (getOr0 bb.Width * (w.width : Rat)) ≤ 0
      rw [h]
      norm_num [getOr0, pyInt]
    · left
      show pyInt (getOr0 bb.Width * (w.width : Rat)) ≤ 0
      rw [h]
      norm_num [getOr0, pyInt]
    · right
      show pyInt (getOr0 bb.Height * (w.height : Rat)) ≤ 0
      rw [h]
      norm_num [getOr0, pyInt]
    · right
      show pyInt (getOr0 bb.Height * (w.height : Rat)) ≤ 0
      rw [h]
      norm_num [getOr0, pyInt]

/-- Witness for claim C9: an instance with no box and an instance with no
width field are both skipped on the fixture. -/
theorem claim9_missing_fields_witness :
    removeStep fixture instEmpty = fixture ∧
    removeStep fixture instNoWidth = fixture :=
  ⟨(claim9_missing_fields fixture instEmpty).2.2.1 rfl,
   (claim9_missing_fields fixture instNoWidth).2.2.2
     { Left := some (1/4), Top := some (1/4), Height := some (1/2) } rfl (Or.inl rfl)⟩

/-- Witness for claim C10 at a concrete heap object and fresh id. -/
theorem claim10_empty_instances_witness :
    (remove_people_from_image_alloc ⟨0, fixture⟩ 1 []).objId ≠ 0 ∧
    (remove_people_from_image_alloc ⟨0, fixture⟩ 1 []).val.pix 7 7 = fixture.pix 7 7 :=
  ⟨(claim10_empty_instances ⟨0, fixture⟩ 1 (by decide)).1,
   (claim10_empty_instances ⟨0, fixture⟩ 1 (by decide)).2.2 7 7⟩

end ObjectRemoval
